import Mathlib

/-! # TEA token distribution script (main.js)

A shallow embedding of `src/main.js`: configuration loading, the recipient
list loader, the randomized amount, `sendTea`, `processAddresses` and the
top-level script that starts the first run and arms the timer.

Modelling conventions.

* A JavaScript string is the list of its characters (`JsString`).
* JavaScript numbers are exact: integers are `Int`, fractional amounts are
  rationals; `none` stands for the non-finite values (`NaN`, `±Infinity`).
  Floating-point rounding is not modelled.
* Code that talks to the outside world (console, file system, RPC node,
  `Math.random`) is written in the effect type `Eff`: it produces the list
  of events it caused, in order, and either a value or a thrown `JsError`.
  What the outside world answers is read from a *world* record
  (`SendWorld`, `RunWorld`), so every theorem quantifies over all answers.
-/

namespace TeaSender

/-! ## Strings -/

/-- A JavaScript string, as the sequence of its characters. -/
abbrev JsString := List Char

/-- The code points that `String.prototype.trim` and `parseInt` strip:
ECMAScript *WhiteSpace* (TAB, VT, FF, SP, NBSP, ZWNBSP and the Unicode
space separators) and *LineTerminator* (LF, CR, LS, PS). -/
def isJsWhiteSpace (c : Char) : Bool :=
  c.toNat = 0x09 || c.toNat = 0x0A || c.toNat = 0x0B || c.toNat = 0x0C ||
  c.toNat = 0x0D || c.toNat = 0x20 || c.toNat = 0xA0 || c.toNat = 0x1680 ||
  (0x2000 ≤ c.toNat && c.toNat ≤ 0x200A) ||
  c.toNat = 0x2028 || c.toNat = 0x2029 || c.toNat = 0x202F ||
  c.toNat = 0x205F || c.toNat = 0x3000 || c.toNat = 0xFEFF

/-- The line feed character, the separator of `split('\n')`. -/
def newline : Char := Char.ofNat 10

/-- The builtin `s.split('\n')`: the pieces of `s` between line feeds; the
empty string gives the one-element list holding the empty string. -/
def splitNewline : JsString → List JsString
  | [] => [[]]
  | c :: cs =>
    if c = newline then [] :: splitNewline cs
    else
      match splitNewline cs with
      | [] => [[c]]
      | l :: ls => (c :: l) :: ls

/-- The builtin `s.trim()`: white space removed from both ends. -/
def trim (s : JsString) : JsString :=
  (s.dropWhile isJsWhiteSpace).rdropWhile isJsWhiteSpace

/-- Lines 31-34: the recipient list read from the text of `address.txt`,
`content.split('\n').map(addr => addr.trim()).filter(addr => addr.length > 0)`. -/
def loadAddresses (content : JsString) : List JsString :=
  ((splitNewline content).map (fun addr => trim addr)).filter
    (fun addr => decide (addr.length > 0))

/-! ## Configuration (lines 10-16) -/

/-- The environment variables the script reads, after `dotenv.config()`;
`none` is an unset variable (`undefined`). -/
structure ProcessEnv where
  RPC_URL : Option JsString
  PRIVATE_KEY : Option JsString
  MIN_AMOUNT : Option JsString
  MAX_AMOUNT : Option JsString
  INTERVAL_MINUTES : Option JsString

/-- Truthiness of a value that is a string or `undefined`: only `undefined`
and the empty string are falsy. -/
def truthy : Option JsString → Bool
  | none => false
  | some s => !s.isEmpty

/-- The expression `v || d` for a string-or-undefined `v` and a string `d`. -/
def strOr (v : Option JsString) (d : JsString) : JsString :=
  match v with
  | some s => if s.isEmpty then d else s
  | none => d

/-- The value of a character as a digit (radix up to 36), if it is one. -/
def digitValue (c : Char) : Option Nat :=
  if 48 ≤ c.toNat ∧ c.toNat ≤ 57 then some (c.toNat - 48)
  else if 97 ≤ c.toNat ∧ c.toNat ≤ 122 then some (c.toNat - 97 + 10)
  else if 65 ≤ c.toNat ∧ c.toNat ≤ 90 then some (c.toNat - 65 + 10)
  else none

/-- The digits of the longest leading run of radix-`R` digits of a string. -/
def takeDigits (R : Nat) : JsString → List Nat
  | [] => []
  | c :: cs =>
    match digitValue c with
    | some d => if d < R then d :: takeDigits R cs else []
    | none => []

/-- The integer a digit sequence denotes in radix `R`. -/
def digitsValue (R : Nat) (ds : List Nat) : Nat :=
  ds.foldl (fun acc d => acc * R + d) 0

/-- The builtin `parseInt(v)` with no radix argument, on a string or
`undefined` (which is first converted to the string "undefined"): leading
white space is skipped, one sign is read, a `0x`/`0X` mark switches to
radix 16, and the longest run of digits is converted. `none` is `NaN`;
`-0` is `0`. -/
def parseInt (v : Option JsString) : Option Int :=
  let inputString : JsString :=
    match v with
    | some s => s
    | none => "undefined".toList
  let S := inputString.dropWhile isJsWhiteSpace
  let sign : Int :=
    match S with
    | '-' :: _ => -1
    | _ => 1
  let S :=
    match S with
    | '+' :: rest => rest
    | '-' :: rest => rest
    | _ => S
  let RS : Nat × JsString :=
    match S with
    | '0' :: 'x' :: rest => (16, rest)
    | '0' :: 'X' :: rest => (16, rest)
    | _ => (10, S)
  let Z := takeDigits RS.1 RS.2
  if Z.isEmpty then none else some (sign * (digitsValue RS.1 Z : Int))

/-- The expression `n || d` for a number `n`: `NaN` and `0` are falsy. -/
def numOr (n : Option Int) (d : Int) : Int :=
  match n with
  | some k => if k = 0 then d else k
  | none => d

/-- The object `CONFIG` of lines 10-16. -/
structure Config where
  rpcUrl : JsString
  privateKey : Option JsString
  minAmount : JsString
  maxAmount : JsString
  intervalMinutes : Int

/-- Lines 10-16: `CONFIG` as built from the environment. -/
def loadConfig (env : ProcessEnv) : Config where
  rpcUrl := strOr env.RPC_URL "https://tea-sepolia.g.alchemy.com/public".toList
  privateKey := env.PRIVATE_KEY
  minAmount := strOr env.MIN_AMOUNT "0.001".toList
  maxAmount := strOr env.MAX_AMOUNT "0.01".toList
  intervalMinutes := numOr (parseInt env.INTERVAL_MINUTES) 1

/-- Line 124: the period handed to `setInterval`, in milliseconds. -/
def timerPeriodMs (CONFIG : Config) : Int :=
  CONFIG.intervalMinutes * 60 * 1000

/-! ## Events and effects -/

/-- A thrown JavaScript `Error`, with its `message`. -/
structure JsError where
  message : JsString
deriving DecidableEq, Repr

/-- The lines written with `console.log`. -/
inductive LogLine where
  /-- Line 41, "Loaded n recipient addresses". -/
  | loaded (n : Nat)
  /-- Line 118, "Will run every n minutes". -/
  | willRun (minutes : Int)
  /-- Line 90, "Starting TEA token distribution". -/
  | starting
  /-- Line 91, "Using RPC URL: url". -/
  | usingRpc (url : JsString)
  /-- Line 99, "Wallet address: a". -/
  | walletAddress (address : JsString)
  /-- Line 100, "Wallet balance: b TEA", the balance given in wei. -/
  | walletBalance (wei : Nat)
  /-- Line 67, "Sending x TEA to a", the amount given in millionths of TEA. -/
  | sending (microTea : Int) (toAddress : JsString)
  /-- Line 75, "Transaction sent: hash". -/
  | txSent (hash : JsString)
  /-- Line 79, "Transaction confirmed in block n". -/
  | txConfirmed (blockNumber : Nat)
  /-- Line 111, "All transactions completed". -/
  | allCompleted
deriving DecidableEq, Repr

/-- The lines written with `console.error`. -/
inductive ErrLine where
  /-- Line 20. -/
  | privateKeyRequired
  /-- Line 27. -/
  | addressFileNotFound
  /-- Line 37. -/
  | noAddresses
  /-- Line 83, "Error sending to r:" and the error's message. -/
  | sendFailed (recipient : JsString) (message : JsString)
  /-- Line 113, "Error in main process:" and the error's message. -/
  | mainProcess (message : JsString)
deriving DecidableEq, Repr

/-- What the program does to the outside world, in the order it does it. -/
inductive Event where
  | log (line : LogLine)
  | error (line : ErrLine)
  /-- Line 26, `fs.existsSync(addressFilePath)`. -/
  | existsSync
  /-- Line 31, `fs.readFileSync(addressFilePath, 'utf8')`. -/
  | readFileSync
  /-- Line 44, `new ethers.JsonRpcProvider(url)`. -/
  | newProvider (url : JsString)
  /-- Line 45, `new ethers.Wallet(key, provider)`. -/
  | newWallet (key : JsString)
  /-- Line 121, the call `processAddresses()` that starts the first run. -/
  | startRun
  /-- Line 124, `setInterval(processAddresses, ms)`. -/
  | setInterval (ms : Int)
  /-- A call of `process.exit(code)`. -/
  | exit (code : Nat)
  /-- Line 95, the request `wallet.getAddress()`. -/
  | walletGetAddress
  /-- Line 96, the RPC request `provider.getBalance(address)`. -/
  | rpcGetBalance (address : JsString)
  /-- Entry into `sendTea(recipient)` (line 53): one send attempt. -/
  | sendTeaCalled (recipient : JsString)
  /-- Line 70, the RPC request `wallet.sendTransaction` with its `to` and `value`. -/
  | rpcSendTransaction (toAddress : JsString) (value : Int)
  /-- Line 78, `tx.wait()` for the transaction with this hash. -/
  | rpcWait (hash : JsString)
  /-- Line 108, `setTimeout(resolve, delay)`. -/
  | setTimeout (delay : Int)
deriving DecidableEq, Repr

/-- An effectful computation: the events it caused and its completion, a
returned value or a thrown error. -/
def Eff (α : Type) : Type := List Event × Except JsError α

namespace Eff

/-- Return a value, causing nothing. -/
def ret {α : Type} (a : α) : Eff α := ([], Except.ok a)

/-- Sequencing: a thrown error skips the rest. -/
def andThen {α β : Type} (m : Eff α) (f : α → Eff β) : Eff β :=
  match m with
  | (t, Except.ok a) => (t ++ (f a).1, (f a).2)
  | (t, Except.error e) => (t, Except.error e)

/-- Cause one event. -/
def emit (e : Event) : Eff Unit := ([e], Except.ok ())

/-- The completion of an outside call: its value, or the error it throws. -/
def outcome {α : Type} (r : Except JsError α) : Eff α := ([], r)

/-- The statement `try { body } catch (error) { handler }`. -/
def tryCatch {α : Type} (body : Eff α) (handler : JsError → Eff α) : Eff α :=
  match body with
  | (t, Except.ok a) => (t, Except.ok a)
  | (t, Except.error e) => (t ++ (handler e).1, (handler e).2)

/-- The events of a computation. -/
def trace {α : Type} (m : Eff α) : List Event := m.1

/-- The completion of a computation. -/
def result {α : Type} (m : Eff α) : Except JsError α := m.2

end Eff

instance : Monad Eff where
  pure := Eff.ret
  bind := Eff.andThen

/-! ## The randomized amount (lines 47-50 and 58-65) -/

/-- Lines 48-50, `getRandomAmount(min, max)`, with the value `random`
that `Math.random()` returns made explicit. -/
def getRandomAmount (random min max : ℚ) : ℚ :=
  random * (max - min) + min

/-- The integer `n` that `x.toFixed(6)` prints as `n / 10^6`: the one
nearest to `x * 10^6`, the one away from zero when two are equally near. -/
def roundMicro (x : ℚ) : Int :=
  if 0 ≤ x then ⌊x * 1000000 + 1 / 2⌋ else -⌊-x * 1000000 + 1 / 2⌋

/-- The string `x.toFixed(6)` returns. -/
inductive Fixed6 where
  /-- Plain decimal notation with exactly six fraction digits, the value
  being `n / 10^6`. -/
  | decimal (n : Int)
  /-- Any other text: "NaN", "Infinity", "-Infinity", or the exponent
  notation (such as "1e+21") used from `10^21` on. -/
  | other
deriving DecidableEq, Repr

/-- The builtin `x.toFixed(6)`; `none` is a non-finite number. -/
def toFixed6 : Option ℚ → Fixed6
  | none => Fixed6.other
  | some x => if |x| < 10 ^ 21 then Fixed6.decimal (roundMicro x) else Fixed6.other

/-- The library call `ethers.parseEther(s)` on the output of `toFixed(6)`:
a decimal numeral is scaled by `10^18`, anything else is rejected with a
thrown error. -/
def parseEther : Fixed6 → Except JsError Int
  | Fixed6.decimal n => Except.ok (n * 10 ^ 12)
  | Fixed6.other => Except.error ⟨"invalid FixedNumber string value".toList⟩

/-- Library functions whose code is outside the repository, as parameters. -/
structure Lib where
  /-- The call `ethers.getAddress(s)`: the checksummed address, or a thrown error. -/
  getAddress : JsString → Except JsError JsString
  /-- The builtin `parseFloat(s)`; `none` is a non-finite result. -/
  parseFloat : JsString → Option ℚ
  /-- The constructor `new ethers.Wallet(key, provider)`, which rejects a
  malformed key with a thrown error. -/
  newWallet : JsString → Except JsError Unit

/-- Lines 59-62: `amountInTea`; a non-finite bound makes the amount non-finite. -/
def amountInTea (lib : Lib) (CONFIG : Config) (random : ℚ) : Option ℚ :=
  match lib.parseFloat CONFIG.minAmount, lib.parseFloat CONFIG.maxAmount with
  | some min, some max => some (getRandomAmount random min max)
  | _, _ => none

/-- Line 65: `amountInWei`, the value that is transferred. -/
def amountInWei (lib : Lib) (CONFIG : Config) (random : ℚ) : Except JsError Int :=
  parseEther (toFixed6 (amountInTea lib CONFIG random))

/-! ## sendTea (lines 53-86) -/

/-- The object `wallet.sendTransaction` resolves to. -/
structure TransactionResponse where
  hash : JsString
deriving DecidableEq, Repr

/-- The object `tx.wait()` resolves to. -/
structure TransactionReceipt where
  blockNumber : Nat
deriving DecidableEq, Repr

/-- What the outside world answers during one call of `sendTea`. -/
structure SendWorld where
  /-- The value of `Math.random()` at line 49. -/
  random : ℚ
  /-- The completion of `wallet.sendTransaction` for a recipient and a value. -/
  sendTransaction : JsString → Int → Except JsError TransactionResponse
  /-- The completion of `tx.wait()` up to the read of the receipt's block
  number (a missing receipt counts as the error that read throws). -/
  wait : TransactionResponse → Except JsError TransactionReceipt

open Eff in
/-- Lines 53-86, `sendTea(recipientAddress)`. -/
def sendTea (lib : Lib) (CONFIG : Config) (w : SendWorld)
    (recipientAddress : JsString) : Eff Bool := do
  emit (Event.sendTeaCalled recipientAddress)
  tryCatch
    (do
      let toAddress ← outcome (lib.getAddress recipientAddress)
      let amount := amountInTea lib CONFIG w.random
      let amountInWei ← outcome (parseEther (toFixed6 amount))
      emit (Event.log (LogLine.sending (amountInWei / 10 ^ 12) toAddress))
      emit (Event.rpcSendTransaction toAddress amountInWei)
      let tx ← outcome (w.sendTransaction toAddress amountInWei)
      emit (Event.log (LogLine.txSent tx.hash))
      emit (Event.rpcWait tx.hash)
      let receipt ← outcome (w.wait tx)
      emit (Event.log (LogLine.txConfirmed receipt.blockNumber))
      pure true)
    (fun error => do
      emit (Event.error (ErrLine.sendFailed recipientAddress error.message))
      pure false)

/-! ## processAddresses (lines 89-115) -/

/-- What the outside world answers during one run of `processAddresses`. -/
structure RunWorld where
  /-- The completion of `wallet.getAddress()`. -/
  getAddress : Except JsError JsString
  /-- The completion of `provider.getBalance(address)`, in wei. -/
  getBalance : JsString → Except JsError Nat
  /-- The answers during the `k`-th iteration's `sendTea`. -/
  send : Nat → SendWorld
  /-- The value of `Math.random()` at line 107 in the `k`-th iteration. -/
  delayRandom : Nat → ℚ

open Eff in
/-- Lines 103-109: the loop over the recipients, from iteration `k` on. -/
def sendLoop (lib : Lib) (CONFIG : Config) (w : RunWorld) :
    Nat → List JsString → Eff Unit
  | _, [] => pure ()
  | k, recipientAddress :: rest => do
    let _ ← sendTea lib CONFIG (w.send k) recipientAddress
    let delay : Int := ⌊w.delayRandom k * 2000⌋ + 1000
    emit (Event.setTimeout delay)
    sendLoop lib CONFIG w (k + 1) rest

open Eff in
/-- Lines 89-115, `processAddresses()`: one run. -/
def processAddresses (lib : Lib) (CONFIG : Config) (addresses : List JsString)
    (w : RunWorld) : Eff Unit := do
  emit (Event.log LogLine.starting)
  emit (Event.log (LogLine.usingRpc CONFIG.rpcUrl))
  tryCatch
    (do
      emit Event.walletGetAddress
      let address ← outcome w.getAddress
      emit (Event.rpcGetBalance address)
      let balance ← outcome (w.getBalance address)
      emit (Event.log (LogLine.walletAddress address))
      emit (Event.log (LogLine.walletBalance balance))
      sendLoop lib CONFIG w 0 addresses
      emit (Event.log LogLine.allCompleted))
    (fun error => emit (Event.error (ErrLine.mainProcess error.message)))

/-- The recipients of the send attempts of a trace, in order. -/
def sendAttempts (t : List Event) : List JsString :=
  t.filterMap (fun e =>
    match e with
    | Event.sendTeaCalled r => some r
    | _ => none)

/-- Lines 121 and 124: the run a timer fires. Invocation `0` is the call at
startup and invocation `n + 1` the `n`-th tick of `setInterval`; the callback
is `processAddresses` itself, without arguments, and nothing is carried from
one invocation to the next except the constants `CONFIG` and `addresses`. -/
def invocation (lib : Lib) (CONFIG : Config) (addresses : List JsString)
    (worlds : Nat → RunWorld) (n : Nat) : Eff Unit :=
  processAddresses lib CONFIG addresses (worlds n)

/-! ## The top-level script (lines 10-45 and 117-124) -/

/-- How the synchronous top-level script ends. -/
inductive Startup where
  /-- The process ended with `process.exit(code)`. -/
  | exited (code : Nat)
  /-- An uncaught error ended the process. -/
  | crashed (error : JsError)
  /-- The first run was started and the timer armed with this period. -/
  | running (CONFIG : Config) (addresses : List JsString) (periodMs : Int)

/-- The top-level script, from the environment and the address file
(`none`: there is no file `address.txt`): the events of the synchronous
part, in order, and how it ends. -/
def script (lib : Lib) (env : ProcessEnv) (addressFile : Option JsString) :
    List Event × Startup :=
  let CONFIG := loadConfig env
  match CONFIG.privateKey with
  | none => ([Event.error ErrLine.privateKeyRequired, Event.exit 1], Startup.exited 1)
  | some key =>
    if key.isEmpty then
      ([Event.error ErrLine.privateKeyRequired, Event.exit 1], Startup.exited 1)
    else
      match addressFile with
      | none =>
        ([Event.existsSync, Event.error ErrLine.addressFileNotFound, Event.exit 1],
          Startup.exited 1)
      | some content =>
        let addresses := loadAddresses content
        if addresses.length = 0 then
          ([Event.existsSync, Event.readFileSync, Event.error ErrLine.noAddresses,
            Event.exit 1], Startup.exited 1)
        else
          let opened := [Event.existsSync, Event.readFileSync,
            Event.log (LogLine.loaded addresses.length), Event.newProvider CONFIG.rpcUrl,
            Event.newWallet key]
          match lib.newWallet key with
          | Except.error e => (opened, Startup.crashed e)
          | Except.ok _ =>
            (opened ++ [Event.log (LogLine.willRun CONFIG.intervalMinutes),
              Event.startRun, Event.setInterval (timerPeriodMs CONFIG)],
              Startup.running CONFIG addresses (timerPeriodMs CONFIG))

/-- The events that reach the network or start work: creating the provider
or the wallet, an RPC request, starting a run, arming a timer. -/
def Event.isNetworkOrRun : Event → Bool
  | Event.newProvider _ => true
  | Event.newWallet _ => true
  | Event.startRun => true
  | Event.setInterval _ => true
  | Event.walletGetAddress => true
  | Event.rpcGetBalance _ => true
  | Event.sendTeaCalled _ => true
  | Event.rpcSendTransaction _ _ => true
  | Event.rpcWait _ => true
  | Event.setTimeout _ => true
  | _ => false

/-- The events that touch the address file. -/
def Event.isFileAccess : Event → Bool
  | Event.existsSync => true
  | Event.readFileSync => true
  | _ => false

/-- An event that is neither an entry into `sendTea`, nor the completion
line of a run, nor an exit of the process. -/
def quietEvent : Event → Bool
  | Event.sendTeaCalled _ => false
  | Event.log LogLine.allCompleted => false
  | Event.exit _ => false
  | _ => true

/-! ## Sample inputs -/

/-- A sample library: 42-character strings are addresses, the two default
amounts parse to their values, every key is accepted. -/
def sampleLib : Lib where
  getAddress := fun s =>
    if s.length = 42 then Except.ok s else Except.error ⟨"invalid address".toList⟩
  parseFloat := fun s =>
    if s = "0.001".toList then some (1 / 1000)
    else if s = "0.01".toList then some (1 / 100)
    else none
  newWallet := fun _ => Except.ok ()

/-- A sample environment: only the key is set. -/
def sampleEnv : ProcessEnv where
  RPC_URL := none
  PRIVATE_KEY := some "0xkey".toList
  MIN_AMOUNT := none
  MAX_AMOUNT := none
  INTERVAL_MINUTES := none

/-- A sample recipient list: a malformed entry, then two well-formed ones. -/
def sampleAddresses : List JsString :=
  ["oops".toList, List.replicate 42 'a', List.replicate 42 'b']

/-- A sample transaction world: submission fails for recipients `bbb...`. -/
def sampleSendWorld : SendWorld where
  random := 1 / 2
  sendTransaction := fun toAddress _ =>
    if toAddress = List.replicate 42 'b' then Except.error ⟨"network down".toList⟩
    else Except.ok ⟨"0xhash".toList⟩
  wait := fun _ => Except.ok ⟨7⟩

/-- A sample run world in which identity and balance are fetched. -/
def sampleRunWorld : RunWorld where
  getAddress := Except.ok "0xwallet".toList
  getBalance := fun _ => Except.ok (10 ^ 18)
  send := fun _ => sampleSendWorld
  delayRandom := fun _ => 1 / 4

/-- A sample run world in which the balance query fails. -/
def failingRunWorld : RunWorld where
  getAddress := Except.ok "0xwallet".toList
  getBalance := fun _ => Except.error ⟨"timeout".toList⟩
  send := fun _ => sampleSendWorld
  delayRandom := fun _ => 1 / 4

/-! ## What the recipient loader is meant to compute -/

/-- The text `t` is the text `l` trimmed of surrounding white space: `l` is
`t` between two runs of white space, and `t` neither starts nor ends with a
white-space character. -/
def IsTrimOf (l t : JsString) : Prop :=
  (∃ pre post : JsString, l = pre ++ t ++ post ∧
    (∀ c ∈ pre, isJsWhiteSpace c = true) ∧ (∀ c ∈ post, isJsWhiteSpace c = true)) ∧
  (∀ c, t.head? = some c → isJsWhiteSpace c = false) ∧
  (∀ c, t.getLast? = some c → isJsWhiteSpace c = false)

/-- A line is blank when all its characters are white space. -/
def isBlank (l : JsString) : Bool := l.all isJsWhiteSpace

end TeaSender

/-! # Theorems -/

namespace TeaSender

/-! ## The effect type -/

namespace Eff

theorem bind_eq {α β : Type} (m : Eff α) (f : α → Eff β) :
    (m >>= f) = Eff.andThen m f := rfl

theorem pure_eq {α : Type} (a : α) : (pure a : Eff α) = Eff.ret a := rfl

theorem emit_andThen {β : Type} (e : Event) (f : Unit → Eff β) :
    Eff.andThen (Eff.emit e) f = (e :: (f ()).1, (f ()).2) := rfl

theorem outcome_ok_andThen {α β : Type} (a : α) (f : α → Eff β) :
    Eff.andThen (Eff.outcome (Except.ok a)) f = f a := rfl

theorem outcome_error_andThen {α β : Type} (e : JsError) (f : α → Eff β) :
    Eff.andThen (Eff.outcome (Except.error e : Except JsError α)) f =
      ([], Except.error e) := rfl

theorem tryCatch_ok {α : Type} (t : List Event) (a : α) (h : JsError → Eff α) :
    Eff.tryCatch (t, Except.ok a) h = (t, Except.ok a) := rfl

theorem tryCatch_error {α : Type} (t : List Event) (e : JsError) (h : JsError → Eff α) :
    Eff.tryCatch (t, Except.error e) h = (t ++ (h e).1, (h e).2) := rfl

end Eff

/-! ## sendTea -/

/-- C1. `sendTea` never raises and returns a boolean: for every recipient
and every completion of the four fallible steps, it returns `true` exactly
when address normalization, amount conversion, transaction submission and
the confirmation wait all succeed, and `false` otherwise. -/
theorem sendTea_returns_true_iff_all_steps_succeed (lib : Lib) (CONFIG : Config)
    (w : SendWorld) (recipientAddress : JsString) :
    ∃ b : Bool, (sendTea lib CONFIG w recipientAddress).result = Except.ok b ∧
      (b = true ↔
        ∃ toAddress wei tx receipt,
          lib.getAddress recipientAddress = Except.ok toAddress ∧
          amountInWei lib CONFIG w.random = Except.ok wei ∧
          w.sendTransaction toAddress wei = Except.ok tx ∧
          w.wait tx = Except.ok receipt) ∧
      (b = false ↔
        ¬ ∃ toAddress wei tx receipt,
          lib.getAddress recipientAddress = Except.ok toAddress ∧
          amountInWei lib CONFIG w.random = Except.ok wei ∧
          w.sendTransaction toAddress wei = Except.ok tx ∧
          w.wait tx = Except.ok receipt) := by
  unfold sendTea amountInWei
  simp only [Eff.bind_eq, Eff.pure_eq, Eff.result]
  cases h1 : lib.getAddress recipientAddress with
  | error e => exact ⟨false, by simp [Eff.emit_andThen, Eff.outcome_error_andThen, Eff.tryCatch_error, Eff.ret]⟩
  | ok toAddress =>
    cases h2 : parseEther (toFixed6 (amountInTea lib CONFIG w.random)) with
    | error e => exact ⟨false, by simp [Eff.emit_andThen, Eff.outcome_ok_andThen, Eff.outcome_error_andThen, Eff.tryCatch_error, Eff.ret]⟩
    | ok wei =>
      cases h3 : w.sendTransaction toAddress wei with
      | error e => exact ⟨false, by simp [Eff.emit_andThen, Eff.outcome_ok_andThen, Eff.outcome_error_andThen, Eff.tryCatch_error, Eff.ret, h3]⟩
      | ok tx =>
        cases h4 : w.wait tx with
        | error e => exact ⟨false, by simp [Eff.emit_andThen, Eff.outcome_ok_andThen, Eff.outcome_error_andThen, Eff.tryCatch_error, Eff.tryCatch_ok, Eff.ret, h3, h4]⟩
        | ok receipt => exact ⟨true, by simp [Eff.emit_andThen, Eff.outcome_ok_andThen, Eff.tryCatch_ok, Eff.ret, h3, h4]⟩

theorem sendTea_shape (lib : Lib) (CONFIG : Config) (w : SendWorld)
    (recipientAddress : JsString) :
    ∃ (b : Bool) (t : List Event),
      sendTea lib CONFIG w recipientAddress =
        (Event.sendTeaCalled recipientAddress :: t, Except.ok b) ∧
      ∀ e ∈ t, quietEvent e = true := by
  unfold sendTea
  simp only [Eff.bind_eq, Eff.pure_eq]
  cases h1 : lib.getAddress recipientAddress with
  | error e =>
    exact ⟨false, _, by simp only [Eff.emit_andThen, Eff.outcome_error_andThen,
      Eff.tryCatch_error, Eff.ret]; rfl, by simp [quietEvent]⟩
  | ok toAddress =>
    cases h2 : parseEther (toFixed6 (amountInTea lib CONFIG w.random)) with
    | error e =>
      exact ⟨false, _, by simp only [Eff.emit_andThen, Eff.outcome_ok_andThen,
        Eff.outcome_error_andThen, Eff.tryCatch_error, Eff.ret, h2]; rfl, by simp [quietEvent]⟩
    | ok wei =>
      cases h3 : w.sendTransaction toAddress wei with
      | error e =>
        exact ⟨false, _, by simp only [Eff.emit_andThen, Eff.outcome_ok_andThen,
          Eff.outcome_error_andThen, Eff.tryCatch_error, Eff.ret, h2, h3]; rfl,
          by simp [quietEvent]⟩
      | ok tx =>
        cases h4 : w.wait tx with
        | error e =>
          exact ⟨false, _, by simp only [Eff.emit_andThen, Eff.outcome_ok_andThen,
            Eff.outcome_error_andThen, Eff.tryCatch_error, Eff.ret, h2, h3, h4]; rfl,
            by simp [quietEvent]⟩
        | ok receipt =>
          exact ⟨true, _, by simp only [Eff.emit_andThen, Eff.outcome_ok_andThen,
            Eff.tryCatch_ok, Eff.ret, h2, h3, h4]; rfl, by simp [quietEvent]⟩

/-! ## processAddresses -/

theorem sendAttempts_quiet (t : List Event) (h : ∀ e ∈ t, quietEvent e = true) :
    sendAttempts t = [] := by
  unfold sendAttempts
  rw [List.filterMap_eq_nil_iff]
  intro e he
  have := h e he
  cases e <;> simp_all [quietEvent]

theorem sendAttempts_append (s t : List Event) :
    sendAttempts (s ++ t) = sendAttempts s ++ sendAttempts t := by
  unfold sendAttempts
  exact List.filterMap_append _ _ _

theorem sendLoop_shape (lib : Lib) (CONFIG : Config) (w : RunWorld)
    (rest : List JsString) :
    ∀ k : Nat, ∃ t : List Event,
      sendLoop lib CONFIG w k rest = (t, Except.ok ()) ∧
      sendAttempts t = rest ∧
      (∀ e ∈ t, e ≠ Event.log LogLine.allCompleted) ∧
      (∀ e ∈ t, ∀ c, e ≠ Event.exit c) := by
  induction rest with
  | nil =>
    intro k
    exact ⟨[], rfl, rfl, by simp, by simp⟩
  | cons r rs ih =>
    intro k
    obtain ⟨b, t1, h1, q1⟩ := sendTea_shape lib CONFIG (w.send k) r
    obtain ⟨t2, h2, a2, c2, x2⟩ := ih (k + 1)
    refine ⟨Event.sendTeaCalled r :: t1 ++
      (Event.setTimeout (⌊w.delayRandom k * 2000⌋ + 1000) :: t2), ?_, ?_, ?_, ?_⟩
    · unfold sendLoop
      simp only [Eff.bind_eq, h1, h2, Eff.andThen, Eff.emit]
      simp
    · rw [sendAttempts_append]
      have : sendAttempts (Event.sendTeaCalled r :: t1) = [r] := by
        have := sendAttempts_quiet t1 q1
        simpa [sendAttempts] using this
      rw [this]
      have : sendAttempts (Event.setTimeout (⌊w.delayRandom k * 2000⌋ + 1000) :: t2) = rs := by
        simpa [sendAttempts] using a2
      rw [this]
      rfl
    · intro e he
      simp only [List.cons_append, List.mem_cons, List.mem_append] at he
      rcases he with rfl | he | rfl | he
      · simp
      · intro h; subst h; have := q1 _ he; simp [quietEvent] at this
      · simp
      · exact c2 e he
    · intro e he c
      simp only [List.cons_append, List.mem_cons, List.mem_append] at he
      rcases he with rfl | he | rfl | he
      · simp
      · intro h; subst h; have := q1 _ he; simp [quietEvent] at this
      · simp
      · exact x2 e he c

theorem processAddresses_fetched (lib : Lib) (CONFIG : Config)
    (addresses : List JsString) (w : RunWorld) (address : JsString) (balance : Nat)
    (hAddress : w.getAddress = Except.ok address)
    (hBalance : w.getBalance address = Except.ok balance) :
    ∃ t : List Event,
      processAddresses lib CONFIG addresses w =
        (Event.log LogLine.starting :: Event.log (LogLine.usingRpc CONFIG.rpcUrl) ::
          Event.walletGetAddress :: Event.rpcGetBalance address ::
          Event.log (LogLine.walletAddress address) ::
          Event.log (LogLine.walletBalance balance) ::
          (t ++ [Event.log LogLine.allCompleted]), Except.ok ()) ∧
      sendAttempts t = addresses := by
  obtain ⟨t, ht, ha, -, -⟩ := sendLoop_shape lib CONFIG w addresses 0
  refine ⟨t, ?_, ha⟩
  unfold processAddresses
  simp only [Eff.bind_eq, hAddress, hBalance, ht, Eff.andThen, Eff.emit, Eff.outcome,
    Eff.tryCatch]
  simp

theorem processAddresses_fetch_failed (lib : Lib) (CONFIG : Config)
    (addresses : List JsString) (w : RunWorld)
    (h : (∃ e, w.getAddress = Except.error e) ∨
      (∃ a e, w.getAddress = Except.ok a ∧ w.getBalance a = Except.error e)) :
    ∃ (pre : List Event) (e : JsError),
      processAddresses lib CONFIG addresses w =
        (Event.log LogLine.starting :: Event.log (LogLine.usingRpc CONFIG.rpcUrl) ::
          Event.walletGetAddress :: (pre ++ [Event.error (ErrLine.mainProcess e.message)]),
          Except.ok ()) ∧
      (pre = [] ∨ ∃ a, pre = [Event.rpcGetBalance a]) := by
  rcases h with ⟨e, he⟩ | ⟨a, e, ha, he⟩
  · refine ⟨[], e, ?_, Or.inl rfl⟩
    unfold processAddresses
    simp only [Eff.bind_eq, he, Eff.andThen, Eff.emit, Eff.outcome, Eff.tryCatch]
    simp
  · refine ⟨[Event.rpcGetBalance a], e, ?_, Or.inr ⟨a, rfl⟩⟩
    unfold processAddresses
    simp only [Eff.bind_eq, ha, he, Eff.andThen, Eff.emit, Eff.outcome, Eff.tryCatch]
    simp

theorem processAddresses_starts_from_the_beginning (lib : Lib) (CONFIG : Config)
    (addresses : List JsString) (w : RunWorld) :
    ∃ t : List Event,
      (processAddresses lib CONFIG addresses w).trace =
        Event.log LogLine.starting :: Event.log (LogLine.usingRpc CONFIG.rpcUrl) ::
          Event.walletGetAddress :: t := by
  cases hA : w.getAddress with
  | error e =>
    obtain ⟨pre, e', h, -⟩ :=
      processAddresses_fetch_failed lib CONFIG addresses w (Or.inl ⟨e, hA⟩)
    exact ⟨_, by rw [h]; rfl⟩
  | ok a =>
    cases hB : w.getBalance a with
    | error e =>
      obtain ⟨pre, e', h, -⟩ :=
        processAddresses_fetch_failed lib CONFIG addresses w (Or.inr ⟨a, e, hA, hB⟩)
      exact ⟨_, by rw [h]; rfl⟩
    | ok b =>
      obtain ⟨t, h, -⟩ := processAddresses_fetched lib CONFIG addresses w a b hA hB
      exact ⟨_, by rw [h]; rfl⟩

/-- C8. If fetching the wallet address or the wallet balance fails in an
invocation of `processAddresses`, that run is aborted: `sendTea` is entered
for no recipient, "All transactions completed" is not logged, the error is
caught and logged at the run boundary (the last event), the invocation
completes without raising and without a process exit; and every later
invocation by the timer starts again from the beginning (logs the start,
fetches the wallet identity anew) and, when its own fetches succeed,
attempts every recipient. -/
theorem processAddresses_aborts_run_when_fetch_fails (lib : Lib) (CONFIG : Config)
    (addresses : List JsString) (worlds : Nat → RunWorld) (n : Nat)
    (h : (∃ e, (worlds n).getAddress = Except.error e) ∨
      (∃ a e, (worlds n).getAddress = Except.ok a ∧
        (worlds n).getBalance a = Except.error e)) :
    (invocation lib CONFIG addresses worlds n).result = Except.ok () ∧
    sendAttempts (invocation lib CONFIG addresses worlds n).trace = [] ∧
    Event.log LogLine.allCompleted ∉ (invocation lib CONFIG addresses worlds n).trace ∧
    (∀ c, Event.exit c ∉ (invocation lib CONFIG addresses worlds n).trace) ∧
    (∃ e : JsError, (invocation lib CONFIG addresses worlds n).trace.getLast? =
      some (Event.error (ErrLine.mainProcess e.message))) ∧
    ∀ m, n < m →
      (∃ t, (invocation lib CONFIG addresses worlds m).trace =
        Event.log LogLine.starting :: Event.log (LogLine.usingRpc CONFIG.rpcUrl) ::
          Event.walletGetAddress :: t) ∧
      (∀ a b, (worlds m).getAddress = Except.ok a →
        (worlds m).getBalance a = Except.ok b →
        sendAttempts (invocation lib CONFIG addresses worlds m).trace = addresses ∧
        (invocation lib CONFIG addresses worlds m).trace.getLast? =
          some (Event.log LogLine.allCompleted)) := by
  obtain ⟨pre, e, hrun, hpre⟩ :=
    processAddresses_fetch_failed lib CONFIG addresses (worlds n) h
  unfold invocation
  refine ⟨?_, ?_, ?_, ?_, ?_, ?_⟩
  · rw [hrun]; rfl
  · rw [hrun]
    rcases hpre with rfl | ⟨a, rfl⟩ <;> simp [Eff.trace, sendAttempts]
  · rw [hrun]
    rcases hpre with rfl | ⟨a, rfl⟩ <;> simp [Eff.trace]
  · intro c
    rw [hrun]
    rcases hpre with rfl | ⟨a, rfl⟩ <;> simp [Eff.trace]
  · refine ⟨e, ?_⟩
    rw [hrun]
    rcases hpre with rfl | ⟨a, rfl⟩ <;> simp [Eff.trace]
  · intro m _
    refine ⟨processAddresses_starts_from_the_beginning lib CONFIG addresses (worlds m), ?_⟩
    intro a b hA hB
    obtain ⟨t, ht, ha⟩ := processAddresses_fetched lib CONFIG addresses (worlds m) a b hA hB
    rw [ht]
    constructor
    · simp only [Eff.trace]
      have : sendAttempts (t ++ [Event.log LogLine.allCompleted]) = addresses := by
        rw [sendAttempts_append, ha]; simp [sendAttempts]
      simpa [sendAttempts] using this
    · simp only [Eff.trace]
      have : ∀ (p : List Event) (x : Event), (p ++ [x]).getLast? = some x := by
        intro p x; simp
      exact this
        (Event.log LogLine.starting :: Event.log (LogLine.usingRpc CONFIG.rpcUrl) ::
          Event.walletGetAddress :: Event.rpcGetBalance a ::
          Event.log (LogLine.walletAddress a) ::
          Event.log (LogLine.walletBalance b) :: t) _

/-- Witness of C8: the balance query fails at startup (invocation 0) and the
first timer tick (invocation 1) finds the node answering again. -/
theorem processAddresses_aborts_run_when_fetch_fails_witness :
    (invocation sampleLib (loadConfig sampleEnv) sampleAddresses
      (fun k => if k = 0 then failingRunWorld else sampleRunWorld) 0).trace =
      [Event.log LogLine.starting,
        Event.log (LogLine.usingRpc "https://tea-sepolia.g.alchemy.com/public".toList),
        Event.walletGetAddress, Event.rpcGetBalance "0xwallet".toList,
        Event.error (ErrLine.mainProcess "timeout".toList)] ∧
    (invocation sampleLib (loadConfig sampleEnv) sampleAddresses
      (fun k => if k = 0 then failingRunWorld else sampleRunWorld) 0).result =
      Except.ok () ∧
    sendAttempts (invocation sampleLib (loadConfig sampleEnv) sampleAddresses
      (fun k => if k = 0 then failingRunWorld else sampleRunWorld) 1).trace =
      sampleAddresses :=
  ⟨rfl,
    (processAddresses_aborts_run_when_fetch_fails sampleLib (loadConfig sampleEnv)
      sampleAddresses (fun k => if k = 0 then failingRunWorld else sampleRunWorld) 0
      (Or.inr ⟨"0xwallet".toList, ⟨"timeout".toList⟩, rfl, rfl⟩)).1,
    ((processAddresses_aborts_run_when_fetch_fails sampleLib (loadConfig sampleEnv)
      sampleAddresses (fun k => if k = 0 then failingRunWorld else sampleRunWorld) 0
      (Or.inr ⟨"0xwallet".toList, ⟨"timeout".toList⟩, rfl, rfl⟩)).2.2.2.2.2 1
        (by decide)).2 "0xwallet".toList (10 ^ 18) rfl rfl |>.1⟩

/-! ## The recipient loader -/

theorem splitNewline_ne_nil (s : JsString) : splitNewline s ≠ [] := by
  induction s with
  | nil => simp [splitNewline]
  | cons c cs ih =>
    unfold splitNewline
    split
    · simp
    · split <;> simp

theorem intercalate_cons_cons (sep x y : JsString) (ys : List JsString) :
    List.intercalate sep (x :: y :: ys) = x ++ sep ++ List.intercalate sep (y :: ys) := by
  simp [List.intercalate, List.intersperse]

theorem intercalate_splitNewline (s : JsString) :
    List.intercalate [newline] (splitNewline s) = s := by
  induction s with
  | nil => simp [splitNewline, List.intercalate]
  | cons c cs ih =>
    unfold splitNewline
    split
    · rename_i hc
      obtain ⟨y, ys, hy⟩ := List.exists_cons_of_ne_nil (splitNewline_ne_nil cs)
      rw [hy, intercalate_cons_cons, ← hy, ih, hc]
      rfl
    · split
      · rename_i h; exact absurd h (splitNewline_ne_nil cs)
      · rename_i l ls h
        rw [h] at ih
        cases ls with
        | nil =>
          simp only [List.intercalate, List.intersperse, List.flatten, List.append_nil] at ih ⊢
          rw [← ih]
        | cons y ys =>
          rw [intercalate_cons_cons] at ih ⊢
          rw [← ih]
          simp

theorem not_newline_mem_splitNewline (s : JsString) :
    ∀ l ∈ splitNewline s, newline ∉ l := by
  induction s with
  | nil => simp [splitNewline]
  | cons c cs ih =>
    unfold splitNewline
    split
    · intro l hl
      rcases List.mem_cons.1 hl with rfl | hl
      · simp
      · exact ih l hl
    · rename_i hc
      split
      · intro l hl
        rcases List.mem_cons.1 hl with rfl | hl
        · simpa using Ne.symm hc
        · simp at hl
      · rename_i l ls h
        rw [h] at ih
        intro l' hl'
        rcases List.mem_cons.1 hl' with rfl | hl'
        · have := ih l (List.mem_cons_self _ _)
          simp only [List.mem_cons, not_or]
          exact ⟨Ne.symm hc, this⟩
        · exact ih l' (List.mem_cons_of_mem _ hl')

theorem mem_of_mem_splitNewline (s : JsString) :
    ∀ l ∈ splitNewline s, ∀ c ∈ l, c ∈ s := by
  induction s with
  | nil => simp [splitNewline]
  | cons c cs ih =>
    unfold splitNewline
    split
    · intro l hl x hx
      rcases List.mem_cons.1 hl with rfl | hl
      · simp at hx
      · exact List.mem_cons_of_mem _ (ih l hl x hx)
    · split
      · intro l hl x hx
        rcases List.mem_cons.1 hl with rfl | hl
        · simp only [List.mem_singleton] at hx
          rw [hx]; exact List.mem_cons_self _ _
        · simp at hl
      · rename_i l ls h
        rw [h] at ih
        intro l' hl' x hx
        rcases List.mem_cons.1 hl' with rfl | hl'
        · rcases List.mem_cons.1 hx with rfl | hx
          · exact List.mem_cons_self _ _
          · exact List.mem_cons_of_mem _ (ih l (List.mem_cons_self _ _) x hx)
        · exact List.mem_cons_of_mem _ (ih l' (List.mem_cons_of_mem _ hl') x hx)

theorem rdropWhile_append_rtakeWhile (p : Char → Bool) (l : JsString) :
    l.rdropWhile p ++ l.rtakeWhile p = l := by
  unfold List.rdropWhile List.rtakeWhile
  rw [← List.reverse_append, List.takeWhile_append_dropWhile, List.reverse_reverse]

theorem mem_rtakeWhile_imp (p : Char → Bool) (l : JsString) (c : Char)
    (h : c ∈ l.rtakeWhile p) : p c = true := by
  unfold List.rtakeWhile at h
  exact List.mem_takeWhile_imp (List.mem_reverse.1 h)

theorem trim_isTrimOf (l : JsString) : IsTrimOf l (trim l) := by
  refine ⟨⟨l.takeWhile isJsWhiteSpace,
    (l.dropWhile isJsWhiteSpace).rtakeWhile isJsWhiteSpace, ?_, ?_, ?_⟩, ?_, ?_⟩
  · unfold trim
    rw [List.append_assoc, rdropWhile_append_rtakeWhile, List.takeWhile_append_dropWhile]
  · intro c hc
    exact List.mem_takeWhile_imp hc
  · intro c hc
    exact mem_rtakeWhile_imp _ _ c hc
  · intro c hc
    unfold trim at hc
    obtain ⟨r, hr⟩ : (l.dropWhile isJsWhiteSpace).rdropWhile isJsWhiteSpace <+:
        l.dropWhile isJsWhiteSpace := List.rdropWhile_prefix _ _
    have h := List.head?_dropWhile_not isJsWhiteSpace l
    rw [← hr, List.head?_append, hc] at h
    simpa using h
  · intro c hc
    unfold trim at hc
    by_cases hn : (l.dropWhile isJsWhiteSpace).rdropWhile isJsWhiteSpace = []
    · rw [hn] at hc; simp at hc
    · have h := List.rdropWhile_last_not isJsWhiteSpace _ hn
      rw [List.getLast?_eq_getLast _ hn] at hc
      simp only [Option.some.injEq] at hc
      rw [hc] at h
      simpa using h

theorem trim_eq_nil_iff (l : JsString) : trim l = [] ↔ isBlank l = true := by
  unfold trim isBlank
  rw [List.rdropWhile_eq_nil_iff, List.all_eq_true]
  constructor
  · intro h
    have hd : l.dropWhile isJsWhiteSpace = [] := by
      by_contra hne
      have h1 := List.head_dropWhile_not isJsWhiteSpace l hne
      have h2 := h _ (List.head_mem hne)
      rw [h1] at h2
      exact Bool.noConfusion h2
    exact List.dropWhile_eq_nil_iff.1 hd
  · intro h x hx
    have hd : l.dropWhile isJsWhiteSpace = [] := List.dropWhile_eq_nil_iff.2 h
    rw [hd] at hx
    simp at hx

/-- C3. For every content of the address file (empty or not), the loaded
recipient list is the sequence of the content's newline-separated lines
(the pieces that, joined by line feeds, give back the content, none holding
a line feed), each trimmed of surrounding white space, with the lines that
are empty after trimming removed, in file order and with duplicates kept;
the loaded count is the number of non-blank lines; and no loaded entry is
empty or starts or ends with white space. -/
theorem loadAddresses_is_trimmed_nonblank_lines (content : JsString) :
    List.intercalate [newline] (splitNewline content) = content ∧
    (∀ l ∈ splitNewline content, newline ∉ l) ∧
    (∀ l ∈ splitNewline content, IsTrimOf l (trim l)) ∧
    loadAddresses content =
      ((splitNewline content).map trim).filter (fun a => decide (a ≠ [])) ∧
    (loadAddresses content).length =
      (splitNewline content).countP (fun l => !isBlank l) ∧
    (∀ a ∈ loadAddresses content,
      a ≠ [] ∧ (∀ c, a.head? = some c → isJsWhiteSpace c = false) ∧
        (∀ c, a.getLast? = some c → isJsWhiteSpace c = false)) := by
  have hfilter : loadAddresses content =
      ((splitNewline content).map trim).filter (fun a => decide (a ≠ [])) := by
    unfold loadAddresses
    apply List.filter_congr
    intro a _
    cases a <;> simp
  refine ⟨intercalate_splitNewline content, not_newline_mem_splitNewline content,
    fun l _ => trim_isTrimOf l, hfilter, ?_, ?_⟩
  · rw [hfilter, ← List.countP_eq_length_filter, List.countP_map]
    apply List.countP_congr
    intro l _
    have := trim_eq_nil_iff l
    cases hb : isBlank l <;> simp_all
  · intro a ha
    rw [hfilter, List.mem_filter, List.mem_map] at ha
    obtain ⟨⟨l, _, rfl⟩, hne⟩ := ha
    have h := trim_isTrimOf l
    exact ⟨by simpa using hne, h.2.1, h.2.2⟩

theorem loadAddresses_eq_nil_of_blank (content : JsString)
    (h : ∀ c ∈ content, isJsWhiteSpace c = true) : loadAddresses content = [] := by
  unfold loadAddresses
  rw [List.filter_eq_nil_iff]
  intro a ha
  obtain ⟨l, hl, rfl⟩ := List.mem_map.1 ha
  have hb : isBlank l = true := by
    unfold isBlank
    rw [List.all_eq_true]
    intro c hc
    exact h c (mem_of_mem_splitNewline content l hl c hc)
  rw [(trim_eq_nil_iff l).2 hb]
  simp

/-! ## The top-level script -/

/-- C7. Whenever `PRIVATE_KEY` is absent or empty, the script ends in
`process.exit(1)` whatever the other settings are and whether or not the
address file exists and whatever it holds; the only events are the error
line and the exit, so the address file is neither checked for existence
nor read. -/
theorem script_exits_before_file_when_key_missing (lib : Lib) (env : ProcessEnv)
    (addressFile : Option JsString)
    (hKey : env.PRIVATE_KEY = none ∨ env.PRIVATE_KEY = some []) :
    script lib env addressFile =
      ([Event.error ErrLine.privateKeyRequired, Event.exit 1], Startup.exited 1) ∧
    ∀ e ∈ (script lib env addressFile).1,
      e.isFileAccess = false ∧ e.isNetworkOrRun = false := by
  have hs : script lib env addressFile =
      ([Event.error ErrLine.privateKeyRequired, Event.exit 1], Startup.exited 1) := by
    unfold script
    rcases hKey with h | h <;> simp [loadConfig, h]
  refine ⟨hs, ?_⟩
  rw [hs]
  intro e he
  simp only [List.mem_cons, List.mem_singleton, List.not_mem_nil, or_false] at he
  rcases he with rfl | rfl <;> exact ⟨rfl, rfl⟩

/-- Witness of C7: no key, every other setting given, a well-formed address
file present. -/
theorem script_exits_before_file_when_key_missing_witness :
    script sampleLib
      { RPC_URL := some "http://localhost:8545".toList, PRIVATE_KEY := none,
        MIN_AMOUNT := some "1".toList, MAX_AMOUNT := some "2".toList,
        INTERVAL_MINUTES := some "5".toList }
      (some (List.replicate 42 'a')) =
      ([Event.error ErrLine.privateKeyRequired, Event.exit 1], Startup.exited 1) :=
  (script_exits_before_file_when_key_missing sampleLib _ _ (Or.inl rfl)).1

/-- C6. With the key present and the address file existing, for every file
content made only of white space and line terminators (the empty content
included), the script ends in `process.exit(1)` after reading the file and
printing the error line: no provider or wallet is created, no network
request is made, no run is started and no timer is armed. -/
theorem script_exits_on_blank_address_file (lib : Lib) (env : ProcessEnv)
    (content : JsString)
    (hKey : truthy env.PRIVATE_KEY = true)
    (hBlank : ∀ c ∈ content, isJsWhiteSpace c = true) :
    script lib env (some content) =
      ([Event.existsSync, Event.readFileSync, Event.error ErrLine.noAddresses,
        Event.exit 1], Startup.exited 1) ∧
    ∀ e ∈ (script lib env (some content)).1, e.isNetworkOrRun = false := by
  have hs : script lib env (some content) =
      ([Event.existsSync, Event.readFileSync, Event.error ErrLine.noAddresses,
        Event.exit 1], Startup.exited 1) := by
    unfold script
    cases hk : env.PRIVATE_KEY with
    | none => rw [hk] at hKey; simp [truthy] at hKey
    | some key =>
      rw [hk] at hKey
      have hne : key.isEmpty = false := by simpa [truthy] using hKey
      simp [loadConfig, hk, hne, loadAddresses_eq_nil_of_blank content hBlank]
  refine ⟨hs, ?_⟩
  rw [hs]
  intro e he
  simp only [List.mem_cons, List.mem_singleton, List.not_mem_nil, or_false] at he
  rcases he with rfl | rfl | rfl | rfl <;> rfl

/-- Witness of C6: a file holding blanks, a tab, a carriage return and line
feeds only. -/
theorem script_exits_on_blank_address_file_witness :
    script sampleLib sampleEnv (some [' ', Char.ofNat 9, newline, Char.ofNat 13, newline]) =
      ([Event.existsSync, Event.readFileSync, Event.error ErrLine.noAddresses,
        Event.exit 1], Startup.exited 1) :=
  (script_exits_on_blank_address_file sampleLib sampleEnv
    [' ', Char.ofNat 9, newline, Char.ofNat 13, newline] rfl (by decide)).1

/-! ## The randomized amount -/

/-- Counterexample to C5 as stated: with `min = max` (allowed by `min ≤ max`)
the generated value is `max` itself, which is not strictly below `max`. -/
theorem getRandomAmount_not_below_max_when_bounds_equal :
    ((1 : ℚ) / 1000 ≤ 1 / 1000 ∧ (0 : ℚ) ≤ 1 / 2 ∧ (1 : ℚ) / 2 < 1) ∧
    ¬ ((1 : ℚ) / 1000 ≤ getRandomAmount (1 / 2) (1 / 1000) (1 / 1000) ∧
      getRandomAmount (1 / 2) (1 / 1000) (1 / 1000) < 1 / 1000) := by
  unfold getRandomAmount
  norm_num

/-- C5, amended. For all numbers `min ≤ max` and every draw `random` in
`[0, 1)`, `getRandomAmount(min, max) = random * (max - min) + min` lies in
the closed interval `[min, max]`, and it is strictly below `max` whenever
`min < max` (exact rational arithmetic). -/
theorem getRandomAmount_within_bounds (random min max : ℚ)
    (hle : min ≤ max) (h0 : 0 ≤ random) (h1 : random < 1) :
    min ≤ getRandomAmount random min max ∧
    getRandomAmount random min max ≤ max ∧
    (min < max → getRandomAmount random min max < max) := by
  unfold getRandomAmount
  have hd : 0 ≤ max - min := sub_nonneg.2 hle
  refine ⟨?_, ?_, ?_⟩
  · nlinarith [mul_nonneg h0 hd]
  · nlinarith [mul_nonneg (sub_nonneg.2 h1.le) hd]
  · intro hlt
    nlinarith [mul_pos (sub_pos.2 h1) (sub_pos.2 hlt)]

/-- Witness of C5 amended: the default bounds and the draw `1/2`. -/
theorem getRandomAmount_within_bounds_witness :
    (1 : ℚ) / 1000 ≤ getRandomAmount (1 / 2) (1 / 1000) (1 / 100) ∧
    getRandomAmount (1 / 2) (1 / 1000) (1 / 100) ≤ 1 / 100 ∧
    ((1 : ℚ) / 1000 < 1 / 100 → getRandomAmount (1 / 2) (1 / 1000) (1 / 100) < 1 / 100) :=
  getRandomAmount_within_bounds (1 / 2) (1 / 1000) (1 / 100)
    (by norm_num) (by norm_num) (by norm_num)

end TeaSender
